import Mathlib

/-!
Verification development for the genetic-sequence analysis service
(`analizador_genetico.py` and `app.py`): alphabet classification,
transcription and translation, GC content, isoelectric point reporting,
and pairwise sequence comparison. Sequences are embedded as `List Char`,
Python rationals and rounded floats as `ℚ`, and fallible paths as `Option`.
-/

/-- Characters removed by the Python `str.strip()` call (ASCII whitespace). -/
def isPySpace (c : Char) : Bool :=
  c = ' ' || c = '\t' || c = '\n' || c = '\x0d' || c = '\x0b' || c = '\x0c'

/-- Embedding of Python `str.strip()`: drop leading and trailing whitespace. -/
def pyStrip (s : List Char) : List Char :=
  ((s.dropWhile isPySpace).reverse.dropWhile isPySpace).reverse

/-- Embedding of Python `str.upper()` on the ASCII range, as used on sequence text. -/
def pyUpper (s : List Char) : List Char :=
  s.map Char.toUpper

/-- Character class of the regex `[ATCGN]+` in `detectar_tipo`. -/
def alfabetoADN : List Char := ['A', 'T', 'C', 'G', 'N']

/-- Character class of the regex `[AUCGN]+` in `detectar_tipo`. -/
def alfabetoARN : List Char := ['A', 'U', 'C', 'G', 'N']

/-- Character class of the regex `[ACDEFGHIKLMNPQRSTVWY]+` in `detectar_tipo`. -/
def alfabetoProteina : List Char :=
  ['A', 'C', 'D', 'E', 'F', 'G', 'H', 'I', 'K', 'L',
   'M', 'N', 'P', 'Q', 'R', 'S', 'T', 'V', 'W', 'Y']

/-- Embedding of `detectar_tipo` (analizador_genetico.py, lines 15-23):
strip, uppercase, then three ordered `re.fullmatch` tests; a `fullmatch`
against a `[...]+` class succeeds exactly on nonempty strings all of whose
characters lie in the class. -/
def detectar_tipo (s : List Char) : String :=
  let t := pyUpper (pyStrip s)
  if t ≠ [] ∧ ∀ c ∈ t, c ∈ alfabetoADN then "ADN"
  else if t ≠ [] ∧ ∀ c ∈ t, c ∈ alfabetoARN then "ARN"
  else if t ≠ [] ∧ ∀ c ∈ t, c ∈ alfabetoProteina then "Proteína"
  else "Desconocido"

/-- Embedding of `detectar_tipo_secuencia` (app.py, lines 106-113):
`set(seq).issubset(...)` tests, with no normalization of its own. -/
def detectar_tipo_secuencia (s : List Char) : String :=
  if ∀ c ∈ s, c ∈ ['A', 'T', 'C', 'G'] then "ADN"
  else if ∀ c ∈ s, c ∈ ['A', 'U', 'C', 'G'] then "ARN"
  else "PROTEINA"

/-- Membership of an uppercase sequence character in a literal list is
preserved by `pyUpper` and `pyStrip` leaves it in place; helper facts below. -/
theorem pyStrip_of_no_space (s : List Char) (h : ∀ c ∈ s, isPySpace c = false) :
    pyStrip s = s := by
  have h1 : s.dropWhile isPySpace = s := by
    cases s with
    | nil => rfl
    | cons a t =>
      rw [List.dropWhile_cons_of_neg]
      simp [h a (by simp)]
  have h2 : s.reverse.dropWhile isPySpace = s.reverse := by
    cases hs : s.reverse with
    | nil => rfl
    | cons a t =>
      rw [List.dropWhile_cons_of_neg]
      have ha : a ∈ s := by
        have : a ∈ s.reverse := by rw [hs]; simp
        simpa using this
      simp [h a ha]
  unfold pyStrip
  rw [h1, h2, List.reverse_reverse]

theorem pyUpper_of_fixed (s : List Char) (h : ∀ c ∈ s, Char.toUpper c = c) :
    pyUpper s = s := by
  unfold pyUpper
  calc s.map Char.toUpper = s.map id := List.map_congr_left h
  _ = s := List.map_id s

/-- Embedding of the transcription at app.py line 251, `secuencia.replace("T", "U")`
(the same substitution Biopython `Seq.transcribe` performs). -/
def transcribir (s : List Char) : List Char :=
  s.map (fun c => if c = 'T' then 'U' else c)

/-- Embedding of the retro-transcription at app.py line 258, `secuencia.replace("U", "T")`
(the same substitution Biopython `Seq.back_transcribe` performs). -/
def retrotranscribir (s : List Char) : List Char :=
  s.map (fun c => if c = 'U' then 'T' else c)

/-- Modelled from the spec: the static CodonTable, a read-only mapping from
3-character RNA codon to single-letter amino acid, with the stop marker
written as an asterisk. The table itself lives inside Biopython
(`Bio.Data.CodonTable`, standard genetic code), not under src/; the entries
below are the 64 codons of that standard table. -/
def tabla_codones : List (List Char × Char) :=
  [(['U','U','U'], 'F'), (['U','U','C'], 'F'), (['U','U','A'], 'L'), (['U','U','G'], 'L'),
   (['C','U','U'], 'L'), (['C','U','C'], 'L'), (['C','U','A'], 'L'), (['C','U','G'], 'L'),
   (['A','U','U'], 'I'), (['A','U','C'], 'I'), (['A','U','A'], 'I'), (['A','U','G'], 'M'),
   (['G','U','U'], 'V'), (['G','U','C'], 'V'), (['G','U','A'], 'V'), (['G','U','G'], 'V'),
   (['U','C','U'], 'S'), (['U','C','C'], 'S'), (['U','C','A'], 'S'), (['U','C','G'], 'S'),
   (['C','C','U'], 'P'), (['C','C','C'], 'P'), (['C','C','A'], 'P'), (['C','C','G'], 'P'),
   (['A','C','U'], 'T'), (['A','C','C'], 'T'), (['A','C','A'], 'T'), (['A','C','G'], 'T'),
   (['G','C','U'], 'A'), (['G','C','C'], 'A'), (['G','C','A'], 'A'), (['G','C','G'], 'A'),
   (['U','A','U'], 'Y'), (['U','A','C'], 'Y'), (['U','A','A'], '*'), (['U','A','G'], '*'),
   (['C','A','U'], 'H'), (['C','A','C'], 'H'), (['C','A','A'], 'Q'), (['C','A','G'], 'Q'),
   (['A','A','U'], 'N'), (['A','A','C'], 'N'), (['A','A','A'], 'K'), (['A','A','G'], 'K'),
   (['G','A','U'], 'D'), (['G','A','C'], 'D'), (['G','A','A'], 'E'), (['G','A','G'], 'E'),
   (['U','G','U'], 'C'), (['U','G','C'], 'C'), (['U','G','A'], '*'), (['U','G','G'], 'W'),
   (['C','G','U'], 'R'), (['C','G','C'], 'R'), (['C','G','A'], 'R'), (['C','G','G'], 'R'),
   (['A','G','U'], 'S'), (['A','G','C'], 'S'), (['A','G','A'], 'R'), (['A','G','G'], 'R'),
   (['G','G','U'], 'G'), (['G','G','C'], 'G'), (['G','G','A'], 'G'), (['G','G','G'], 'G')]

/-- Modelled from the spec: codon lookup, mapping a codon absent from the
CodonTable (for example one containing the ambiguous letter N) to the
placeholder amino acid X instead of raising. -/
def codonAA (c : List Char) : Char :=
  (tabla_codones.lookup c).getD 'X'

/-- Modelled from the spec: the translation engine realized in source by the
Biopython call `seq.translate(to_stop=True)` (analizador_genetico.py lines 34
and 43, app.py lines 119, 130 and 254), whose implementation is not under
src/. Consecutive non-overlapping codons from offset 0; a stop codon halts
translation, is excluded from the output, and sets the stopped flag; a
trailing fragment of fewer than 3 characters is discarded. -/
def traducir : List Char → List Char × Bool
  | c1 :: c2 :: c3 :: rest =>
    let aa := codonAA [c1, c2, c3]
    if aa = '*' then ([], true)
    else
      let r := traducir rest
      (aa :: r.1, r.2)
  | _ => ([], false)

theorem traducir_corto (r : List Char) (h : r.length < 3) : traducir r = ([], false) := by
  match r with
  | [] => rfl
  | [a] => rfl
  | [a, b] => rfl
  | a :: b :: c :: t => simp only [List.length_cons] at h; omega

theorem traducir_cons3 (c1 c2 c3 : Char) (rest : List Char) :
    traducir (c1 :: c2 :: c3 :: rest) =
      if codonAA [c1, c2, c3] = '*' then ([], true)
      else (codonAA [c1, c2, c3] :: (traducir rest).1, (traducir rest).2) := by
  rfl

/-- Round-half-even on a rational, the tie-breaking rule of the Python builtin
`round`. -/
def roundHalfEven (q : ℚ) : ℤ :=
  let f := ⌊q⌋
  let r := q - f
  if r < 1 / 2 then f
  else if 1 / 2 < r then f + 1
  else if f % 2 = 0 then f else f + 1

/-- Embedding of Python `round(x, 2)`, float arithmetic read as exact
rational arithmetic. -/
def round2 (q : ℚ) : ℚ :=
  (roundHalfEven (q * 100) : ℚ) / 100

theorem roundHalfEven_close (q : ℚ) : |(roundHalfEven q : ℚ) - q| ≤ 1 / 2 := by
  unfold roundHalfEven
  have hf : (⌊q⌋ : ℚ) ≤ q := Int.floor_le q
  have hf2 : q < (⌊q⌋ : ℚ) + 1 := Int.lt_floor_add_one q
  by_cases h1 : q - (⌊q⌋ : ℚ) < 1 / 2
  · simp only [h1, if_true]
    rw [abs_le]
    constructor <;> linarith
  · simp only [h1, if_false]
    by_cases h2 : 1 / 2 < q - (⌊q⌋ : ℚ)
    · simp only [h2, if_true]
      rw [abs_le]
      push_cast
      constructor <;> linarith
    · by_cases h3 : ⌊q⌋ % 2 = 0 <;> simp only [h2, h3, if_true, if_false] <;>
        rw [abs_le] <;> push_cast <;> constructor <;> linarith

theorem round2_close (q : ℚ) : |round2 q - q| ≤ 1 / 200 := by
  unfold round2
  have h := roundHalfEven_close (q * 100)
  rw [abs_le] at h ⊢
  constructor <;> [linarith; linarith]

/-- Embedding of the list comprehension at app.py line 182: the 1-indexed
positions below both lengths where the two sequences disagree, with the two
disagreeing characters. -/
def mutaciones (s1 s2 : List Char) : List (ℕ × Char × Char) :=
  (List.range (min s1.length s2.length)).filterMap (fun i =>
    if s1.getD i ' ' ≠ s2.getD i ' ' then some (i + 1, s1.getD i ' ', s2.getD i ' ') else none)

/-- Embedding of the similarity at app.py line 183,
`round((1 - len(mutaciones) / max(len(seq1), len(seq2))) * 100, 2)`.
When both sequences are empty the Python expression divides by zero and
raises, embedded as `none`. -/
def similitud (s1 s2 : List Char) : Option ℚ :=
  if max s1.length s2.length = 0 then none
  else some (round2 ((1 - ((mutaciones s1 s2).length : ℚ) /
    ((max s1.length s2.length : ℕ) : ℚ)) * 100))

/-- Embedding of `interpretar_mutaciones` (app.py, lines 181-194): the data
content of the formatted reply, namely the similarity and the mutation list. -/
def interpretar_mutaciones (s1 s2 : List Char) :
    Option ℚ × List (ℕ × Char × Char) :=
  (similitud s1 s2, mutaciones s1 s2)

/-- Embedding of the run-extraction loop of `comparar_secuencias_en_texto`
(app.py, lines 164-173): the accumulator `actual` grows on A, T, C, G and is
flushed — kept only if longer than 5 — on any other character and at the end. -/
def extraer_aux : List Char → List (List Char) → List Char → List (List Char)
  | [], secs, actual => if actual.length > 5 then secs ++ [actual] else secs
  | ch :: rest, secs, actual =>
    if ch ∈ ['A', 'T', 'C', 'G'] then extraer_aux rest secs (actual ++ [ch])
    else extraer_aux rest (if actual.length > 5 then secs ++ [actual] else secs) []

/-- The qualifying runs extracted from free text, after the normalization at
app.py line 163, `texto.upper().replace(" ", "")` (only the space character
is removed). -/
def extraer_secuencias (texto : List Char) : List (List Char) :=
  extraer_aux ((pyUpper texto).filter (fun c => c ≠ ' ')) [] []

/-- Embedding of `comparar_secuencias_en_texto` (app.py, lines 162-178):
fewer than two qualifying runs yields the insufficient-input reply, embedded
as `none`; otherwise the first two runs are compared. -/
def comparar_secuencias_en_texto (texto : List Char) :
    Option (Option ℚ × List (ℕ × Char × Char)) :=
  if (extraer_secuencias texto).length < 2 then none
  else some (interpretar_mutaciones ((extraer_secuencias texto).getD 0 [])
    ((extraer_secuencias texto).getD 1 []))

/-- Modelled from the spec: `gc_fraction(seq)` = (count of G plus count of C)
divided by the length, 0 for empty input. In source this quantity appears
scaled to a percentage inline at app.py line 239; the Biopython
`gc_fraction` called at analizador_genetico.py line 38 is not under src/. -/
def gc_fraction (s : List Char) : ℚ :=
  if s.length = 0 then 0 else ((s.count 'G' : ℚ) + (s.count 'C' : ℚ)) / (s.length : ℚ)

/-- Embedding of app.py line 239:
`round((secuencia.count("G") + secuencia.count("C")) / len(secuencia) * 100, 2)
if len(secuencia) > 0 else 0`. -/
def gc_porcentaje (s : List Char) : ℚ :=
  if s.length > 0
  then round2 (((s.count 'G' : ℚ) + (s.count 'C' : ℚ)) / (s.length : ℚ) * 100)
  else 0

/-- Embedding of the isoelectric-point computation in the protein branch of
`analizar_secuencia` (analizador_genetico.py, lines 50-55). The import at
line 4, `from Bio.SeqUtils import molecular_weight, gc_fraction, IsoelectricPoint`,
binds the name `IsoelectricPoint` to the submodule `Bio.SeqUtils.IsoelectricPoint`,
not to the class of the same name inside it, so the call
`IsoelectricPoint(seq)` at line 52 raises `TypeError` (a module object is not
callable); the bare `except Exception` at line 54 then sets the result to
"No calculable". The computation therefore takes the exception path on every
input, embedded as the constant `none` (the NotComputable marker). -/
def punto_isoelectrico (_s : List Char) : Option ℚ :=
  none

/-- Embedding of the protein branch of `analizar_secuencia`
(analizador_genetico.py, lines 49-60) restricted to the fields the
isoelectric-point claim concerns: the branch is taken exactly when
`detectar_tipo` says protein, and reports the isoelectric point and the
length of the sequence normalized at line 28
(`secuencia.upper().replace(" ", "").replace("\n", "")`). -/
def analizar_proteina_resultado (s : List Char) : Option (Option ℚ × ℕ) :=
  if detectar_tipo s = "Proteína" then
    some (punto_isoelectrico s, ((pyUpper s).filter (fun c => c ≠ ' ' ∧ c ≠ '\n')).length)
  else none



theorem normaliza_id (s : List Char)
    (h : ∀ c ∈ s, isPySpace c = false ∧ Char.toUpper c = c) :
    pyUpper (pyStrip s) = s := by
  rw [pyStrip_of_no_space s (fun c hc => (h c hc).1),
    pyUpper_of_fixed s (fun c hc => (h c hc).2)]

theorem alfabetoADN_fixed : ∀ c ∈ alfabetoADN, isPySpace c = false ∧ Char.toUpper c = c := by
  intro c hc
  simp only [alfabetoADN, List.mem_cons, List.not_mem_nil, or_false] at hc
  rcases hc with rfl | rfl | rfl | rfl | rfl <;> exact ⟨by decide, by decide⟩

theorem alfabetoARN_fixed : ∀ c ∈ alfabetoARN, isPySpace c = false ∧ Char.toUpper c = c := by
  intro c hc
  simp only [alfabetoARN, List.mem_cons, List.not_mem_nil, or_false] at hc
  rcases hc with rfl | rfl | rfl | rfl | rfl <;> exact ⟨by decide, by decide⟩

theorem detectar_tipo_eq_ADN (s : List Char) (h0 : s ≠ [])
    (h1 : ∀ c ∈ s, c ∈ alfabetoADN) (hn : pyUpper (pyStrip s) = s) :
    detectar_tipo s = "ADN" := by
  unfold detectar_tipo
  rw [hn, if_pos ⟨h0, h1⟩]

theorem detectar_tipo_eq_ARN (s : List Char) (h0 : s ≠ [])
    (h1 : ∀ c ∈ s, c ∈ alfabetoARN)
    (h2 : ¬(s ≠ [] ∧ ∀ c ∈ s, c ∈ alfabetoADN)) (hn : pyUpper (pyStrip s) = s) :
    detectar_tipo s = "ARN" := by
  unfold detectar_tipo
  rw [hn, if_neg h2, if_pos ⟨h0, h1⟩]

/-- C1: first-match-wins classifier precedence. Every nonempty string over
{A,C,G,N} is classified DNA even with no T and no U; every string over
{A,U,C,G,N} containing U is classified RNA; concretely
`detectar_tipo "ACGN" = "ADN"` (not RNA), `detectar_tipo "AUGC" = "ARN"`,
and the empty string is classified Unknown. -/
theorem claim1_classifier_precedence :
    (∀ s : List Char, s ≠ [] → (∀ c ∈ s, c ∈ ['A', 'C', 'G', 'N']) →
      detectar_tipo s = "ADN") ∧
    (∀ s : List Char, (∀ c ∈ s, c ∈ alfabetoARN) → 'U' ∈ s →
      detectar_tipo s = "ARN") ∧
    detectar_tipo "ACGN".toList = "ADN" ∧
    detectar_tipo "AUGC".toList = "ARN" ∧
    detectar_tipo "".toList = "Desconocido" := by
  refine ⟨?_, ?_, by decide, by decide, by decide⟩
  · intro s h0 h1
    have hsub : ∀ c ∈ s, c ∈ alfabetoADN := by
      intro c hc
      have := h1 c hc
      simp only [List.mem_cons, List.not_mem_nil, or_false] at this
      rcases this with rfl | rfl | rfl | rfl <;> decide
    exact detectar_tipo_eq_ADN s h0 hsub
      (normaliza_id s (fun c hc => alfabetoADN_fixed c (hsub c hc)))
  · intro s h1 hU
    refine detectar_tipo_eq_ARN s (List.ne_nil_of_mem hU) h1 ?_
      (normaliza_id s (fun c hc => alfabetoARN_fixed c (h1 c hc)))
    rintro ⟨-, hall⟩
    exact absurd (hall 'U' hU) (by decide)

/-- C1 witness: the universally quantified parts of the precedence theorem
applied at concrete inputs. -/
theorem claim1_witness :
    detectar_tipo "AACCGGNN".toList = "ADN" ∧ detectar_tipo "AUCGUN".toList = "ARN" :=
  ⟨claim1_classifier_precedence.1 "AACCGGNN".toList (by decide) (by decide),
   claim1_classifier_precedence.2.1 "AUCGUN".toList (by decide) (by decide)⟩

/-- C10: the query router sequence-type detector never yields Unknown; any
string whose characters are neither all in {A,T,C,G} nor all in {A,U,C,G} is
classified protein, including letters outside the 20 amino-acid alphabet such
as "BJZX", and the empty string is classified DNA. -/
theorem claim10_router_detector_total :
    (∀ s : List Char, ¬(∀ c ∈ s, c ∈ ['A', 'T', 'C', 'G']) →
      ¬(∀ c ∈ s, c ∈ ['A', 'U', 'C', 'G']) → detectar_tipo_secuencia s = "PROTEINA") ∧
    (∀ s : List Char, detectar_tipo_secuencia s ≠ "Desconocido") ∧
    detectar_tipo_secuencia "BJZX".toList = "PROTEINA" ∧
    detectar_tipo_secuencia "".toList = "ADN" := by
  refine ⟨?_, ?_, by decide, by decide⟩
  · intro s h1 h2
    unfold detectar_tipo_secuencia
    rw [if_neg h1, if_neg h2]
  · intro s
    unfold detectar_tipo_secuencia
    split
    · decide
    split
    · decide
    · decide

/-- C10 witness: the protein branch of the detector theorem applied at a
concrete input with letters outside both nucleotide alphabets. -/
theorem claim10_witness :
    detectar_tipo_secuencia "MKV".toList = "PROTEINA" ∧
    detectar_tipo_secuencia "QQ".toList ≠ "Desconocido" :=
  ⟨claim10_router_detector_total.1 "MKV".toList (by decide) (by decide),
   claim10_router_detector_total.2.1 "QQ".toList⟩

theorem pyStrip_cons_space (s : List Char) : pyStrip (' ' :: s) = pyStrip s := by
  unfold pyStrip
  rw [List.dropWhile_cons_of_pos (by decide)]

theorem pyStrip_append_space (s : List Char) : pyStrip (s ++ [' ']) = pyStrip s := by
  unfold pyStrip
  rw [List.dropWhile_append]
  by_cases h : (s.dropWhile isPySpace).isEmpty
  · rw [if_pos h]
    rw [List.isEmpty_iff] at h
    rw [h]
    simp only [List.dropWhile_cons]
    norm_num [isPySpace]
  · rw [if_neg h]
    rw [List.reverse_append]
    simp only [List.reverse_cons, List.reverse_nil, List.nil_append, List.singleton_append]
    rw [List.dropWhile_cons_of_pos (by decide)]

/-- C9 counterexample: the classifier does not strip internal whitespace, so
the input "atg cgt" is classified Unknown while its whitespace-free uppercase
form "ATGCGT" is classified DNA — refuting the claim that the two are always
classified the same. -/
theorem claim9_counterexample :
    detectar_tipo "atg cgt".toList = "Desconocido" ∧
    detectar_tipo "ATGCGT".toList = "ADN" ∧
    "atg cgt".toList.filter (fun c => c ≠ ' ') = "atgcgt".toList ∧
    detectar_tipo "atgcgt".toList = "ADN" := by
  refine ⟨by decide, by decide, by decide, by decide⟩

/-- C9 amended: `detectar_tipo` uppercases and strips only leading and
trailing whitespace; a leading or a trailing space never changes the
classification, but a sequence still containing whitespace after that
stripping fails every alphabet rule and is classified Unknown rather than
like its whitespace-free form. -/
theorem claim9_strip_is_outer_only :
    (∀ s : List Char, detectar_tipo (' ' :: s) = detectar_tipo s) ∧
    (∀ s : List Char, detectar_tipo (s ++ [' ']) = detectar_tipo s) ∧
    (∀ s : List Char, (∃ c ∈ pyStrip s, c = ' ') →
      detectar_tipo s = "Desconocido") ∧
    detectar_tipo "atgcgt".toList = "ADN" ∧
    detectar_tipo "atg cgt".toList = "Desconocido" := by
  refine ⟨?_, ?_, ?_, by decide, by decide⟩
  · intro s
    unfold detectar_tipo
    rw [pyStrip_cons_space]
  · intro s
    unfold detectar_tipo
    rw [pyStrip_append_space]
  · intro s hs
    obtain ⟨c, hc, rfl⟩ := hs
    have hmem : ' ' ∈ pyUpper (pyStrip s) := by
      have : Char.toUpper ' ' = ' ' := by decide
      exact this ▸ List.mem_map_of_mem Char.toUpper hc
    unfold detectar_tipo
    rw [if_neg, if_neg, if_neg]
    · rintro ⟨-, hall⟩
      exact absurd (hall ' ' hmem) (by decide)
    · rintro ⟨-, hall⟩
      exact absurd (hall ' ' hmem) (by decide)
    · rintro ⟨-, hall⟩
      exact absurd (hall ' ' hmem) (by decide)

/-- C9 witness: the amended-claim theorem applied at concrete inputs with a
leading space and with an internal space. -/
theorem claim9_witness :
    detectar_tipo (' ' :: "ACGT".toList) = detectar_tipo "ACGT".toList ∧
    detectar_tipo "AT G".toList = "Desconocido" :=
  ⟨claim9_strip_is_outer_only.1 "ACGT".toList,
   claim9_strip_is_outer_only.2.2.1 "AT G".toList (by decide)⟩

/-- C4: for every DNA sequence over {A,T,C,G,N}, retro-transcription inverts
transcription, and transcription is length-preserving. -/
theorem claim4_transcription_roundtrip :
    (∀ s : List Char, (∀ c ∈ s, c ∈ alfabetoADN) →
      retrotranscribir (transcribir s) = s) ∧
    (∀ s : List Char, (transcribir s).length = s.length) := by
  constructor
  · intro s h
    unfold transcribir retrotranscribir
    rw [List.map_map]
    calc s.map ((fun c => if c = 'U' then 'T' else c) ∘ fun c => if c = 'T' then 'U' else c)
        = s.map id := by
          refine List.map_congr_left ?_
          intro c hc
          have := h c hc
          simp only [alfabetoADN, List.mem_cons, List.not_mem_nil, or_false] at this
          rcases this with rfl | rfl | rfl | rfl | rfl <;> decide
    _ = s := List.map_id s
  · intro s
    unfold transcribir
    exact List.length_map s _

/-- C4 witness: the round trip applied to a concrete DNA sequence using the
whole alphabet. -/
theorem claim4_witness :
    retrotranscribir (transcribir "ATCGNTA".toList) = "ATCGNTA".toList :=
  claim4_transcription_roundtrip.1 "ATCGNTA".toList (by decide)

theorem count_GC_le_length (s : List Char) : s.count 'G' + s.count 'C' ≤ s.length := by
  induction s with
  | nil => simp
  | cons a t ih =>
    simp only [List.count_cons, List.length_cons]
    split_ifs with h1 h2 h2
    · exfalso
      rw [beq_iff_eq] at h1 h2
      subst h1
      exact absurd h2 (by decide)
    · omega
    · omega
    · omega

/-- C7: the GC fraction is the count of G plus the count of C over the
length, always lies in the closed interval from 0 to 1, is 0 on empty input
instead of dividing by zero, and the percentage reported at app.py line 239
is exactly this fraction scaled to percent and rounded. -/
theorem claim7_gc_fraction_bounds :
    (∀ s : List Char, 0 ≤ gc_fraction s ∧ gc_fraction s ≤ 1) ∧
    gc_fraction [] = 0 ∧
    (∀ s : List Char, s.length ≠ 0 →
      gc_fraction s = ((s.count 'G' : ℚ) + (s.count 'C' : ℚ)) / (s.length : ℚ)) ∧
    (∀ s : List Char, gc_porcentaje s = round2 (gc_fraction s * 100)) := by
  refine ⟨?_, by norm_num [gc_fraction], ?_, ?_⟩
  · intro s
    unfold gc_fraction
    by_cases h : s.length = 0
    · rw [if_pos h]
      norm_num
    · rw [if_neg h]
      have hp : (0 : ℚ) < (s.length : ℚ) := by
        have : 0 < s.length := Nat.pos_of_ne_zero h
        exact_mod_cast this
      constructor
      · positivity
      · rw [div_le_one hp]
        have := count_GC_le_length s
        exact_mod_cast this
  · intro s h
    unfold gc_fraction
    rw [if_neg h]
  · intro s
    unfold gc_porcentaje gc_fraction
    by_cases h : s.length = 0
    · rw [if_neg (by omega), if_pos h]
      norm_num [round2, roundHalfEven]
    · rw [if_pos (by omega), if_neg h]

/-- C7 witness: the bounds and the formula applied at a concrete sequence. -/
theorem claim7_witness :
    (0 ≤ gc_fraction "GCAT".toList ∧ gc_fraction "GCAT".toList ≤ 1) ∧
    gc_fraction "GCAT".toList =
      (("GCAT".toList.count 'G' : ℚ) + ("GCAT".toList.count 'C' : ℚ)) /
        ("GCAT".toList.length : ℚ) :=
  ⟨claim7_gc_fraction_bounds.1 "GCAT".toList,
   claim7_gc_fraction_bounds.2.2.1 "GCAT".toList (by decide)⟩

theorem traducir_no_stop (rna : List Char) : '*' ∉ (traducir rna).1 := by
  have key : ∀ n (l : List Char), l.length ≤ n → '*' ∉ (traducir l).1 := by
    intro n
    induction n with
    | zero =>
      intro l h
      have hl : l = [] := List.eq_nil_of_length_eq_zero (Nat.le_zero.mp h)
      subst hl
      simp [traducir_corto [] (by decide)]
    | succ n ih =>
      intro l h
      match l with
      | [] => simp [traducir_corto [] (by decide)]
      | [a] => simp [traducir_corto [a] (by simp)]
      | [a, b] => simp [traducir_corto [a, b] (by simp)]
      | a :: b :: c :: rest =>
        rw [traducir_cons3]
        by_cases hc : codonAA [a, b, c] = '*'
        · rw [if_pos hc]
          simp
        · rw [if_neg hc]
          simp only [List.mem_cons, not_or]
          refine ⟨fun he => hc he.symm, ?_⟩
          refine ih rest ?_
          simp only [List.length_cons] at h
          omega
  exact key rna.length rna le_rfl

theorem traducir_drop_partial (rna r : List Char) (h3 : rna.length % 3 = 0)
    (hr : r.length < 3) : traducir (rna ++ r) = traducir rna := by
  have key : ∀ n (l : List Char), l.length ≤ n → l.length % 3 = 0 →
      traducir (l ++ r) = traducir l := by
    intro n
    induction n with
    | zero =>
      intro l h h0
      have hl : l = [] := List.eq_nil_of_length_eq_zero (Nat.le_zero.mp h)
      subst hl
      rw [List.nil_append, traducir_corto r hr]
      rfl
    | succ n ih =>
      intro l h h0
      match l with
      | [] =>
        rw [List.nil_append, traducir_corto r hr]
        rfl
      | [a] => simp at h0
      | [a, b] => simp at h0
      | a :: b :: c :: rest =>
        rw [List.cons_append, List.cons_append, List.cons_append,
          traducir_cons3, traducir_cons3]
        by_cases hc : codonAA [a, b, c] = '*'
        · rw [if_pos hc, if_pos hc]
        · rw [if_neg hc, if_neg hc]
          have hrest : traducir (rest ++ r) = traducir rest := by
            refine ih rest ?_ ?_
            · simp only [List.length_cons] at h
              omega
            · simp only [List.length_cons] at h0
              omega
          rw [hrest]
  exact key rna.length rna le_rfl h3

/-- C3: translation reads consecutive codons from offset 0, never includes
the stop marker in its output, halts at the first in-frame stop codon with
the stopped flag set, silently discards a trailing partial codon, and maps a
codon absent from the table to the placeholder X; concretely
`traducir "AUGUAAUGG" = ("M", stopped = true)`. -/
theorem claim3_translate_to_stop :
    (∀ rna : List Char, '*' ∉ (traducir rna).1) ∧
    (∀ rna r : List Char, rna.length % 3 = 0 → r.length < 3 →
      traducir (rna ++ r) = traducir rna) ∧
    traducir "AUGUAAUGG".toList = (['M'], true) ∧
    traducir "NNN".toList = (['X'], false) ∧
    traducir "AUGUGG".toList = (['M', 'W'], false) := by
  exact ⟨traducir_no_stop, traducir_drop_partial, by decide, by decide, by decide⟩

/-- C3 witness: the universally quantified parts of the translation theorem
applied at concrete inputs. -/
theorem claim3_witness :
    '*' ∉ (traducir "AUGGCU".toList).1 ∧
    traducir ("AUGUGG".toList ++ ['G', 'C']) = traducir "AUGUGG".toList :=
  ⟨claim3_translate_to_stop.1 "AUGGCU".toList,
   claim3_translate_to_stop.2.1 "AUGUGG".toList ['G', 'C'] (by decide) (by decide)⟩

theorem mem_mutaciones_iff (s1 s2 : List Char) (i : ℕ) (a b : Char) :
    (i, a, b) ∈ mutaciones s1 s2 ↔
      1 ≤ i ∧ i ≤ min s1.length s2.length ∧
        s1.getD (i - 1) ' ' ≠ s2.getD (i - 1) ' ' ∧
        a = s1.getD (i - 1) ' ' ∧ b = s2.getD (i - 1) ' ' := by
  unfold mutaciones
  rw [List.mem_filterMap]
  constructor
  · rintro ⟨j, hj, hf⟩
    rw [List.mem_range] at hj
    by_cases hne : s1.getD j ' ' ≠ s2.getD j ' '
    · rw [if_pos hne] at hf
      have h := Option.some.inj hf
      simp only [Prod.mk.injEq] at h
      obtain ⟨hi, ha, hb⟩ := h
      have hj1 : j = i - 1 := by omega
      subst hj1
      exact ⟨by omega, by omega, hne, ha.symm, hb.symm⟩
    · rw [if_neg hne] at hf
      exact absurd hf (by simp)
  · rintro ⟨h1, h2, hne, ha, hb⟩
    refine ⟨i - 1, ?_, ?_⟩
    · rw [List.mem_range]
      omega
    · rw [if_pos hne]
      have hi : i - 1 + 1 = i := by omega
      rw [hi, ha, hb]

theorem length_filterMap_ite {α β : Type} (l : List α) (p q : α → Prop)
    [DecidablePred p] [DecidablePred q] (f g : α → β)
    (hpq : ∀ a ∈ l, p a ↔ q a) :
    (l.filterMap (fun a => if p a then some (f a) else none)).length =
      (l.filterMap (fun a => if q a then some (g a) else none)).length := by
  induction l with
  | nil => rfl
  | cons a t ih =>
    simp only [List.filterMap_cons]
    have h := hpq a (List.mem_cons_self a t)
    have ih2 := ih (fun x hx => hpq x (List.mem_cons_of_mem a hx))
    by_cases hp : p a
    · rw [if_pos hp, if_pos (h.mp hp)]
      simp only [List.length_cons, ih2]
    · rw [if_neg hp, if_neg (fun hq => hp (h.mpr hq))]
      exact ih2

/-- C2 counterexample: at the pair "ATCGATC" and "ATCGATG" the recorded
similarity is the rounded value 85.71, not the exact
100 times (1 minus mutation count over the larger length), which is 600/7;
the claim that the similarity equals the exact formula is false here. -/
theorem claim2_counterexample :
    similitud "ATCGATC".toList "ATCGATG".toList ≠
      some (100 * (1 - ((mutaciones "ATCGATC".toList "ATCGATG".toList).length : ℚ) /
        ((max "ATCGATC".toList.length "ATCGATG".toList.length : ℕ) : ℚ))) := by
  have hm : mutaciones "ATCGATC".toList "ATCGATG".toList = [(7, 'C', 'G')] := by decide
  have h1 : ("ATCGATC".toList).length = 7 := by decide
  have h2 : ("ATCGATG".toList).length = 7 := by decide
  unfold similitud
  rw [hm, h1, h2]
  norm_num [round2, roundHalfEven]

/-- C2 amended: the comparator records a mutation (i, A at i-1, B at i-1)
exactly at the 1-indexed positions up to the shorter length where the two
sequences disagree, the mutation list is never longer than the shorter
length, and the recorded similarity is 100 times (1 minus mutation count
over the larger length) rounded to two decimal places — hence within 1/200
of the exact formula (the similarity is undefined only when both sequences
are empty, where the source divides by zero); on the pair "ATCGATCG" and
"ATCGATGG" this gives exactly one mutation, at position 7, and similarity
87.5. -/
theorem claim2_compare_mutations_similarity :
    (∀ s1 s2 : List Char, ∀ i a b, (i, a, b) ∈ mutaciones s1 s2 ↔
      1 ≤ i ∧ i ≤ min s1.length s2.length ∧
        s1.getD (i - 1) ' ' ≠ s2.getD (i - 1) ' ' ∧
        a = s1.getD (i - 1) ' ' ∧ b = s2.getD (i - 1) ' ') ∧
    (∀ s1 s2 : List Char, (mutaciones s1 s2).length ≤ min s1.length s2.length) ∧
    (∀ s1 s2 : List Char, ∀ q : ℚ, similitud s1 s2 = some q →
      |q - 100 * (1 - ((mutaciones s1 s2).length : ℚ) /
        ((max s1.length s2.length : ℕ) : ℚ))| ≤ 1 / 200) ∧
    mutaciones "ATCGATCG".toList "ATCGATGG".toList = [(7, 'C', 'G')] ∧
    similitud "ATCGATCG".toList "ATCGATGG".toList = some (875 / 10) := by
  refine ⟨mem_mutaciones_iff, ?_, ?_, by decide, ?_⟩
  · intro s1 s2
    unfold mutaciones
    calc ((List.range (min s1.length s2.length)).filterMap _).length
        ≤ (List.range (min s1.length s2.length)).length :=
          List.length_filterMap_le _ _
    _ = min s1.length s2.length := List.length_range _
  · intro s1 s2 q h
    unfold similitud at h
    by_cases hM : max s1.length s2.length = 0
    · rw [if_pos hM] at h
      exact absurd h (by simp)
    · rw [if_neg hM] at h
      have hq := Option.some.inj h
      rw [← hq, mul_comm 100 (1 - ((mutaciones s1 s2).length : ℚ) /
        ((max s1.length s2.length : ℕ) : ℚ))]
      exact round2_close _
  · have hm : mutaciones "ATCGATCG".toList "ATCGATGG".toList = [(7, 'C', 'G')] := by
      decide
    have h1 : ("ATCGATCG".toList).length = 8 := by decide
    have h2 : ("ATCGATGG".toList).length = 8 := by decide
    unfold similitud
    rw [hm, h1, h2]
    norm_num [round2, roundHalfEven]

/-- C2 witness: the quantified parts of the amended comparison theorem
applied at the concrete pair from the claim, the similarity hypothesis
discharged by the concrete conjunct of the same theorem. -/
theorem claim2_witness :
    (7, 'C', 'G') ∈ mutaciones "ATCGATCG".toList "ATCGATGG".toList ∧
    |(875 / 10 : ℚ) -
      100 * (1 - ((mutaciones "ATCGATCG".toList "ATCGATGG".toList).length : ℚ) /
        ((max "ATCGATCG".toList.length "ATCGATGG".toList.length : ℕ) : ℚ))| ≤ 1 / 200 :=
  ⟨(claim2_compare_mutations_similarity.1 "ATCGATCG".toList "ATCGATGG".toList
      7 'C' 'G').mpr (by refine ⟨by decide, by decide, by decide, by decide, by decide⟩),
   claim2_compare_mutations_similarity.2.2.1 "ATCGATCG".toList "ATCGATGG".toList
     (875 / 10) claim2_compare_mutations_similarity.2.2.2.2⟩

/-- C8: comparator symmetry up to label swap — swapping the two sequences
preserves the mutation count and the similarity value. -/
theorem claim8_comparator_symmetric :
    ∀ s1 s2 : List Char,
      (mutaciones s1 s2).length = (mutaciones s2 s1).length ∧
      similitud s1 s2 = similitud s2 s1 := by
  intro s1 s2
  have hlen : (mutaciones s1 s2).length = (mutaciones s2 s1).length := by
    unfold mutaciones
    rw [min_comm s1.length s2.length]
    exact length_filterMap_ite (List.range (min s2.length s1.length))
      (fun i => s1.getD i ' ' ≠ s2.getD i ' ')
      (fun i => s2.getD i ' ' ≠ s1.getD i ' ')
      (fun i => (i + 1, s1.getD i ' ', s2.getD i ' '))
      (fun i => (i + 1, s2.getD i ' ', s1.getD i ' '))
      (fun i _ => ne_comm)
  refine ⟨hlen, ?_⟩
  unfold similitud
  rw [hlen, max_comm s1.length s2.length]

/-- C8 witness: symmetry applied at a concrete pair of sequences of unequal
length with one mismatch. -/
theorem claim8_witness :
    (mutaciones "ATCG".toList "AGC".toList).length =
      (mutaciones "AGC".toList "ATCG".toList).length ∧
    similitud "ATCG".toList "AGC".toList = similitud "AGC".toList "ATCG".toList :=
  claim8_comparator_symmetric "ATCG".toList "AGC".toList

/-- C6: when fewer than two qualifying runs (maximal stretches of A, T, C, G
longer than 5 characters, after uppercasing and removing spaces) can be
extracted from the free text, the comparator signals insufficient input
(`none`) instead of a comparison; with two or more runs it produces a
comparison. -/
theorem claim6_insufficient_input :
    ∀ texto : List Char,
      ((extraer_secuencias texto).length < 2 →
        comparar_secuencias_en_texto texto = none) ∧
      (2 ≤ (extraer_secuencias texto).length →
        ∃ r, comparar_secuencias_en_texto texto = some r) := by
  intro texto
  constructor
  · intro h
    unfold comparar_secuencias_en_texto
    rw [if_pos h]
  · intro h
    unfold comparar_secuencias_en_texto
    rw [if_neg (by omega)]
    exact ⟨_, rfl⟩

/-- C6 witness: the comparator theorem applied to a text with a single
qualifying run and to a text with two qualifying runs. -/
theorem claim6_witness :
    comparar_secuencias_en_texto "compara ATC GAT CGA".toList = none ∧
    ∃ r, comparar_secuencias_en_texto "compara ATCGATCG y ATCGATGG".toList = some r :=
  ⟨(claim6_insufficient_input "compara ATC GAT CGA".toList).1 (by decide),
   (claim6_insufficient_input "compara ATCGATCG y ATCGATGG".toList).2 (by decide)⟩

/-- C5: an all-glycine input such as "GGGG" never reaches the isoelectric
point at all, because the classifier labels it DNA (G belongs to the DNA
alphabet); a protein with no titratable residues such as all-serine "SSSS"
is reported NotComputable; but the protein DKDKDKDK, which contains both an
acidic residue (D) and a basic residue (K), is also reported NotComputable,
because the callable in `IsoelectricPoint(seq)` is the imported submodule
rather than the class inside it, so the computation always lands in the
exception handler. The numeric-value half of the claim fails on every
input. -/
theorem claim5_isoelectric_always_not_computable :
    (detectar_tipo "GGGG".toList = "ADN" ∧
      analizar_proteina_resultado "GGGG".toList = none) ∧
    (detectar_tipo "SSSS".toList = "Proteína" ∧
      analizar_proteina_resultado "SSSS".toList = some (none, 4)) ∧
    (detectar_tipo "DKDKDKDK".toList = "Proteína" ∧
      'D' ∈ "DKDKDKDK".toList ∧ 'K' ∈ "DKDKDKDK".toList ∧
      analizar_proteina_resultado "DKDKDKDK".toList = some (none, 8)) := by
  exact ⟨⟨by decide, by decide⟩, ⟨by decide, by decide⟩,
    ⟨by decide, by decide, by decide, by decide⟩⟩
